import Mathlib

/-!
Shallow embedding of `src/meta_model.py` (class `MetaModel`) from the
MetaModel repository, together with the parts of its interface claimed by
the specification.  Python exceptions are modelled by an explicit error
type; the Python mutation of `self` is modelled by explicit state passing:
an operation takes the wrapper state and returns the resulting state
together with `Except Err` of its return value.
-/

/-- Python exception classes that the source can raise. -/
inductive Err where
  | valueError
  | keyError
  | attributeError
  | typeError
  | importError
  | nameError
  | ioError
deriving DecidableEq

/-- JSON-compatible values (the arguments of recorded calls and the fields
of a serialized snapshot are restricted to these, per the docstring of
`meta_function`). -/
inductive JValue where
  | null
  | str (s : String)
  | nat (n : Nat)
  | bool (b : Bool)
  | arr (xs : List JValue)
  | obj (fields : List (String × JValue))

/-- One Command Log entry: `(func_name, args, kwargs)` as appended (in
intent) by `meta_function` at line 159 of `meta_model.py`. -/
abbrev LogEntry := String × List JValue × List (String × JValue)

/-- The wrapper state: the instance fields a `MetaModel` object carries
after `__init__` (lines 52-73 of `meta_model.py`), minus the attached
module objects, which are passed separately to the dispatcher (they hold
functions over this very state).  The live Gurobi model handle is
modelled as an attribute table, which is all the wrapper ever does with
it in the embedded operations. -/
structure MMState where
  model_name : String
  model : List (String × JValue)
  date_created : String
  model_description : String
  solve_count : Nat
  optimal : Bool
  function_list : List LogEntry
  json_file : String
  filename : String
  module_names : List String

/-- A collaborator function: receives the wrapper (`func(self, *args,
**kwargs)`, line 150), returns the mutated wrapper state and either a
value or a raised exception. -/
abbrev FuncImpl := MMState → List JValue → List (String × JValue) → MMState × Except Err JValue

/-- An attached collaborator module as the dispatcher sees it: its
`__name__` and its function attributes. -/
structure PyModule where
  modName : String
  funcs : List (String × FuncImpl)

/-- First-match association lookup, the behaviour of `getattr` on a
module/object modelled as an attribute list. -/
def lookupFn {α : Type} : List (String × α) → String → Option α
  | [], _ => none
  | (k, v) :: rest, key => if k = key then some v else lookupFn rest key

/-- Lines 109-114 of `meta_model.py`: the loop of the qualified branch
(`module.func`).  `func` starts as `""` (modelled `none`); every module
whose `__name__` matches is probed with `getattr`, overwriting `func`, so
a later match overwrites an earlier one; `getattr` on a module lacking
the attribute raises `AttributeError`, which the `except KeyError`
handler does not catch, so it propagates. -/
def resolveQualified : List PyModule → String → String → Option FuncImpl → Except Err (Option FuncImpl)
  | [], _, _, acc => .ok acc
  | m :: rest, modName, fn, acc =>
    if m.modName = modName then
      match lookupFn m.funcs fn with
      | some impl => resolveQualified rest modName fn (some impl)
      | none => .error .attributeError
    else
      resolveQualified rest modName fn acc

/-- Lines 137-141 of `meta_model.py`: the loop of the unqualified branch.
Every attached module is probed with `getattr`, overwriting `func` each
time it succeeds; a module lacking the name makes `getattr` raise
`AttributeError`, uncaught by the `except KeyError: continue` handler. -/
def resolveInMods : List PyModule → String → Option FuncImpl → Except Err (Option FuncImpl)
  | [], _, acc => .ok acc
  | m :: rest, fn, acc =>
    match lookupFn m.funcs fn with
    | some impl => resolveInMods rest fn (some impl)
    | none => .error .attributeError

/-- Helper for `pySplitDot`: accumulates the current fragment (reversed)
while scanning the characters. -/
def splitDotAux : List Char → List Char → List (List Char)
  | [], acc => [acc.reverse]
  | c :: rest, acc =>
    if c = '.' then acc.reverse :: splitDotAux rest [] else splitDotAux rest (c :: acc)

/-- the Python call `func_name.split(".")`: fragments between the dots, with
`""` splitting to `[""]` and `"."` to `["", ""]`. -/
def pySplitDot (s : String) : List String :=
  (splitDotAux s.data []).map (fun cs => ⟨cs⟩)

/-- `MetaModel.meta_function` (lines 78-159 of `meta_model.py`).

`mods` are the attached module objects (`self.modules`), `selfFuncs` the
method table of the wrapper itself (`getattr(self, ...)`).  Control flow follows
the source:

* empty name: `ValueError` (line 99);
* a name with a dot whose qualifier is not `"self"`: split, search the
  matching modules (lines 106-118), `KeyError` if the qualifier matched
  no attached module; a split into more than two parts raises
  `ValueError` from tuple unpacking (line 107);
* `self.`-qualified: `getattr(self, ...)`; a missing attribute raises
  `AttributeError` (the `except KeyError` at line 126 does not catch it);
* unqualified: the module loop (lines 137-147); `func` remains unset only
  when no module is attached, and then `getattr(self, ...)` is tried, a
  missing attribute again raising `AttributeError`.

The call at line 150 `return`s its value at line 151, so the recording
block at lines 158-159 is unreachable: the embedding returns the invoked
result of the function directly, for every value of `no_record`. -/
def metaFunction (mods : List PyModule) (selfFuncs : List (String × FuncImpl))
    (func_name : String) (args : List JValue) (kwargs : List (String × JValue))
    (no_record : Bool) (s : MMState) : MMState × Except Err JValue :=
  if func_name = "" then (s, .error .valueError)
  else
    match pySplitDot func_name with
    | [] => (s, .error .valueError)
    | [fn] =>
      match resolveInMods mods fn none with
      | .error e => (s, .error e)
      | .ok (some impl) => impl s args kwargs
      | .ok none =>
        match lookupFn selfFuncs fn with
        | some impl => impl s args kwargs
        | none => (s, .error .attributeError)
    | modName :: fn :: rest =>
      if modName ≠ "self" then
        if rest ≠ [] then (s, .error .valueError)
        else
          match resolveQualified mods modName fn none with
          | .error e => (s, .error e)
          | .ok (some impl) => impl s args kwargs
          | .ok none => (s, .error .keyError)
      else
        if rest ≠ [] then (s, .error .valueError)
        else
          match lookupFn selfFuncs fn with
          | some impl => impl s args kwargs
          | none => (s, .error .attributeError)

/-- Association update, the behaviour of `setattr` on an existing
attribute of the model handle. -/
def updateAttr : List (String × JValue) → String → JValue → List (String × JValue)
  | [], _, _ => []
  | (k, v) :: rest, key, value =>
    if k = key then (k, value) :: rest else (k, v) :: updateAttr rest key value

/-- `MetaModel.get_attr` (lines 304-316): `getattr(self.model, attr)`,
re-raised as `AttributeError` when the attribute does not exist; the
wrapper state is returned untouched and nothing is recorded. -/
def get_attr (s : MMState) (attr : String) : MMState × Except Err JValue :=
  match lookupFn s.model attr with
  | some v => (s, .ok v)
  | none => (s, .error .attributeError)

/-- `MetaModel.set_attr` (lines 291-301): `setattr(self.model, attr,
value)`, `AttributeError` when the attribute does not exist.  When the
`setattr` succeeds, line 301 runs
`self.function_list.append("self.set_attr", (attr, value))`: `list.append`
takes exactly one argument, so this call raises `TypeError` and appends
nothing. -/
def set_attr (s : MMState) (attr : String) (value : JValue) : MMState × Except Err JValue :=
  match lookupFn s.model attr with
  | none => (s, .error .attributeError)
  | some _ => ({s with model := updateAttr s.model attr value}, .error .typeError)

/-- Serialization of one Command Log entry by `json.dump`: a Python tuple
becomes a JSON array. -/
def serializeEntry (e : LogEntry) : JValue :=
  .arr [.str e.1, .arr e.2.1, .obj e.2.2]

/-- `MetaModel.write_json` (lines 240-266).  The loop over
`self.__dict__` (insertion order fixed by `__init__`, lines 52-73) copies
every instance field into `data` except `model` (line 253) and `modules`
(line 258); `date_created` is stringified (line 256; the embedding keeps
the already-stringified value in the state).  Line 263 then sets
`self.json_file` to `self.filename + ".json"` and line 264 overwrites the
`json_file` slot of `data` with it.  Returns the updated state and the
document written at the new `json_file` location. -/
def write_json (s : MMState) : MMState × List (String × JValue) :=
  let jf := s.filename ++ ".json"
  ( {s with json_file := jf},
    [("model_name", .str s.model_name),
     ("date_created", .str s.date_created),
     ("model_description", .str s.model_description),
     ("solve_count", .nat s.solve_count),
     ("optimal", .bool s.optimal),
     ("function_list", .arr (s.function_list.map serializeEntry)),
     ("json_file", .str jf),
     ("filename", .str s.filename),
     ("module_names", .arr (s.module_names.map JValue.str))] )

/-- Index of the last occurrence of `c` in `cs`, `-1` when absent: the
behaviour of the Python method `str.rfind`. -/
def rfindChar (cs : List Char) (c : Char) : Int :=
  (cs.foldl (fun (acc : Int × Int) ch =>
    (if ch = c then acc.2 else acc.1, acc.2 + 1)) (-1, 0)).1

/-- The `while` loop of the CPython function `posixpath.splitext`: is there a
character other than `'.'` at an index `k` with `i ≤ k < j`? -/
def hasNonDot (cs : List Char) (i j : Nat) : Bool :=
  ((cs.drop i).take (j - i)).any (fun c => c ≠ '.')

/-- `os.path.splitext` as used at lines 66 and 232: splits off the
extension at the last `'.'` that lies after the last `'/'` and has some
non-dot character before it in the basename. -/
def splitext (p : String) : String × String :=
  let cs := p.data
  let sepIndex := rfindChar cs '/'
  let dotIndex := rfindChar cs '.'
  if sepIndex < dotIndex then
    if hasNonDot cs (sepIndex + 1).toNat dotIndex.toNat then
      (⟨cs.take dotIndex.toNat⟩, ⟨cs.drop dotIndex.toNat⟩)
    else (p, "")
  else (p, "")

/-- A calendar date as `datetime.now()` exposes it: integer year, month
and day fields. -/
structure PyDate where
  year : Nat
  month : Nat
  day : Nat

/-- The date fragment `"{0}{1}{2}".format(d.year, d.month, d.day)` of
lines 69-70 and 236: `str()` of each integer, with no zero padding. -/
def fmtDate (d : PyDate) : String :=
  toString d.year ++ toString d.month ++ toString d.day

/-- `MetaModel.update_filename` (lines 226-237): recomputes
`self.filename` from the stem of the model name, the current date and the
current solve count. -/
def update_filename (d : PyDate) (s : MMState) : MMState :=
  {s with filename :=
    (splitext s.model_name).1 ++ "_" ++ fmtDate d ++ "_" ++ toString s.solve_count}

/-- The module-level names defined in `meta_model.py` (its imports at
lines 7-12 plus the class itself): `os`, `importlib`, `json`, `datetime`,
`pg`, `MetaModel`.  Neither `gp` nor `json_file` is among them. -/
def metaModelGlobals : List String :=
  ["os", "importlib", "json", "datetime", "pg", "MetaModel"]

/-- `MetaModel.load_from_json` (lines 208-222).  Its first statement,
line 214, is `data = self.load_json(json_file)`: `json_file` is not a
parameter, not a local, and not a module-level name of `meta_model.py`,
so evaluating it raises `NameError` before any file is read or any field
is set.  The remaining body (only reachable if `json_file` resolved) is
therefore dead. -/
def load_from_json (s : MMState) : MMState × Except Err Unit :=
  if metaModelGlobals.contains "json_file" then (s, .ok ())
  else (s, .error .nameError)

/-- The `GRB.status.OPTIMAL` status code of `gurobipy`. -/
def GRB_OPTIMAL : Nat := 2

/-- `MetaModel.solve` (lines 269-286).  After `pg.reoptimize(m)` (an
external call on the model handle), line 275 evaluates
`m.status == gp.GRB.status.OPTIMAL`; `gp` is not a module-level name of
`meta_model.py` (it never imports `gurobipy`), so the lookup raises
`NameError` before any wrapper field changes or any snapshot is written.
The two branches below the comparison (only reachable if `gp` resolved)
follow the source text: on optimal, increment the counter, set the flag,
write the snapshot, then recompute the filename; otherwise increment the
counter, clear the flag and write the snapshot without recomputing the
filename.  Returns the state, the list of `(location, document)` snapshot
files written, and the outcome. -/
def solve (d : PyDate) (status : Nat) (s : MMState) :
    MMState × List (String × List (String × JValue)) × Except Err Unit :=
  if metaModelGlobals.contains "gp" then
    if status = GRB_OPTIMAL then
      let s1 := {s with solve_count := s.solve_count + 1, optimal := true}
      let (s2, doc) := write_json s1
      (update_filename d s2, [(s2.json_file, doc)], .ok ())
    else
      let s1 := {s with solve_count := s.solve_count + 1, optimal := false}
      let (s2, doc) := write_json s1
      (s2, [(s2.json_file, doc)], .ok ())
  else (s, [], .error .nameError)

/-- `MetaModel.add_module` (lines 162-182): `importlib.import_module`
raises `ValueError` on an empty name and `ImportError` when the module is
not resolvable (`env` lists the importable module names); on success the
module object is appended to `self.modules` (modelled by the `attached`
name list) and its name is appended to `self.module_names`. -/
def add_module (env : List String) (s : MMState) (attached : List String)
    (module_name : String) : (MMState × List String) × Except Err Unit :=
  if module_name = "" then ((s, attached), .error .valueError)
  else if env.contains module_name then
    (({s with module_names := s.module_names ++ [module_name]},
      attached ++ [module_name]), .ok ())
  else ((s, attached), .error .importError)

/-- The `for module_name in modules: self.add_module(module_name)` loop of
`MetaModel.add_modules` (lines 185-191) in the aliased case of `__init__`
(line 75), where the iterated list IS `self.module_names`: a Python list
iterator reads index `i` of the current list, so an append during the
loop extends the iteration.  One fuel unit per iteration; `none` means
the loop had not finished when the fuel ran out. -/
def add_modules_self (env : List String) :
    Nat → Nat → MMState × List String → Option ((MMState × List String) × Except Err Unit)
  | 0, _, _ => none
  | fuel + 1, i, (s, attached) =>
    if h : i < s.module_names.length then
      match add_module env s attached (s.module_names.get ⟨i, h⟩) with
      | (sa, .ok ()) => add_modules_self env fuel (i + 1) sa
      | (sa, .error e) => some (sa, .error e)
    else some ((s, attached), .ok ())

/-- The field initialisation of `MetaModel.__init__` (lines 52-73) for a
non-empty `model_name`, before the `add_modules` call: description and
log empty, counters zeroed, `filename` built from the stem, the creation
date and the zero solve count.  `dateStr` carries `str(date_created)`. -/
def initFields (model_name : String) (model : List (String × JValue))
    (dateStr : String) (d : PyDate) (module_names : List String) : MMState :=
  let solve_count : Nat := 0
  { model_name := model_name
    model := model
    date_created := dateStr
    model_description := ""
    solve_count := solve_count
    optimal := false
    function_list := []
    json_file := ""
    filename := (splitext model_name).1 ++ "_" ++ fmtDate d ++ "_" ++ toString solve_count
    module_names := module_names }

/-- `MetaModel.__init__` (lines 30-75) with a `model_name` and no
`json_file`: raises `AttributeError` on an empty model name (line 51),
otherwise initialises the fields and, when `module_names` is non-empty,
runs `self.add_modules(self.module_names)` (line 75) — the aliased loop.
`none` means the constructor had not returned within `fuel` loop
iterations. -/
def mkMetaModel (env : List String) (fuel : Nat) (model_name : String)
    (model : List (String × JValue)) (dateStr : String) (d : PyDate)
    (module_names : List String) : Option (Except Err (MMState × List String)) :=
  if model_name = "" then some (.error .attributeError)
  else
    let s := initFields model_name model dateStr d module_names
    if s.module_names = [] then some (.ok (s, []))
    else
      match add_modules_self env fuel 0 (s, []) with
      | none => none
      | some (sa, .ok ()) => some (.ok sa)
      | some (_, .error e) => some (.error e)

/-- The function the last module in attachment order that defines `fn`
holds under that name (a specification-side description used to
characterise the unqualified resolution loop). -/
def lastDefined : List PyModule → String → Option FuncImpl
  | [], _ => none
  | m :: rest, fn =>
    match lastDefined rest fn with
    | some impl => some impl
    | none => lookupFn m.funcs fn

/-- A collaborator function that touches nothing and returns `v`. -/
def retConst (v : JValue) : FuncImpl := fun s _ _ => (s, .ok v)

/-- Sample model handle: a Gurobi-style attribute table. -/
def sampleModel : List (String × JValue) :=
  [("Status", .nat 2), ("ObjVal", .nat 42)]

/-- A concrete wrapper state used by the witnesses. -/
def sampleState : MMState :=
  { model_name := "forest.lp"
    model := sampleModel
    date_created := "2017-03-16 12:00:00"
    model_description := ""
    solve_count := 0
    optimal := false
    function_list := []
    json_file := ""
    filename := "forest_2017316_0"
    module_names := [] }

/-- A module named `alpha` defining `f` (returns `"a"`). -/
def modA : PyModule := ⟨"alpha", [("f", retConst (.str "a"))]⟩

/-- A module named `beta` defining `f` (returns `"b"`). -/
def modB : PyModule := ⟨"beta", [("f", retConst (.str "b"))]⟩

/-- A collaborator function leaves the Command Log alone. -/
def PreservesLog (impl : FuncImpl) : Prop :=
  ∀ s args kwargs, ((impl s args kwargs).1).function_list = s.function_list

/-- Every function of every attached module leaves the Command Log
alone (collaborator operations act on the model handle). -/
def ModsPreserveLog (mods : List PyModule) : Prop :=
  ∀ m ∈ mods, ∀ p ∈ m.funcs, PreservesLog p.2

/-- Every wrapper method in the `getattr(self, ...)` table leaves the
Command Log alone. -/
def TablePreservesLog (t : List (String × FuncImpl)) : Prop :=
  ∀ p ∈ t, PreservesLog p.2

/-- Specification-side description of the filename stem actually
produced: `{base}_{year}{month}{day}_{count}` with each integer written
in decimal without zero padding. -/
def specStem (base : String) (d : PyDate) (count : Nat) : String :=
  base ++ "_" ++ toString d.year ++ toString d.month ++ toString d.day
    ++ "_" ++ toString count

/-! ## Helper lemmas -/

theorem lookupFn_mem {α : Type} (t : List (String × α)) (key : String) (v : α)
    (h : lookupFn t key = some v) : ∃ p ∈ t, p.2 = v := by
  induction t with
  | nil => simp [lookupFn] at h
  | cons hd tl ih =>
    obtain ⟨k, w⟩ := hd
    rw [lookupFn] at h
    split at h
    · injection h with h2
      exact ⟨(k, w), List.mem_cons_self _ _, h2⟩
    · obtain ⟨p, hp, hv⟩ := ih h
      exact ⟨p, List.mem_cons_of_mem _ hp, hv⟩

theorem resolveInMods_ok (mods : List PyModule) (fn : String)
    (acc : Option FuncImpl) (impl : FuncImpl)
    (h : resolveInMods mods fn acc = .ok (some impl)) :
    (∃ m ∈ mods, ∃ p ∈ m.funcs, p.2 = impl) ∨ acc = some impl := by
  induction mods generalizing acc with
  | nil =>
    rw [resolveInMods] at h
    injection h with h2
    exact .inr h2
  | cons m rest ih =>
    rw [resolveInMods] at h
    split at h
    · rename_i i hlk
      rcases ih _ h with ⟨m', hm', p, hp, hv⟩ | hacc
      · exact .inl ⟨m', List.mem_cons_of_mem _ hm', p, hp, hv⟩
      · injection hacc with h2
        obtain ⟨p, hp, hv⟩ := lookupFn_mem _ _ _ hlk
        exact .inl ⟨m, List.mem_cons_self _ _, p, hp, h2 ▸ hv⟩
    · cases h

theorem resolveQualified_ok (mods : List PyModule) (modName fn : String)
    (acc : Option FuncImpl) (impl : FuncImpl)
    (h : resolveQualified mods modName fn acc = .ok (some impl)) :
    (∃ m ∈ mods, ∃ p ∈ m.funcs, p.2 = impl) ∨ acc = some impl := by
  induction mods generalizing acc with
  | nil =>
    rw [resolveQualified] at h
    injection h with h2
    exact .inr h2
  | cons m rest ih =>
    rw [resolveQualified] at h
    split at h
    · split at h
      · rename_i i hlk
        rcases ih _ h with ⟨m', hm', p, hp, hv⟩ | hacc
        · exact .inl ⟨m', List.mem_cons_of_mem _ hm', p, hp, hv⟩
        · injection hacc with h2
          obtain ⟨p, hp, hv⟩ := lookupFn_mem _ _ _ hlk
          exact .inl ⟨m, List.mem_cons_self _ _, p, hp, h2 ▸ hv⟩
      · cases h
    · rcases ih _ h with ⟨m', hm', p, hp, hv⟩ | hacc
      · exact .inl ⟨m', List.mem_cons_of_mem _ hm', p, hp, hv⟩
      · exact .inr hacc

theorem metaFunction_preserves_log (mods : List PyModule)
    (selfFuncs : List (String × FuncImpl)) (func_name : String)
    (args : List JValue) (kwargs : List (String × JValue)) (no_record : Bool)
    (s : MMState) (hm : ModsPreserveLog mods) (ht : TablePreservesLog selfFuncs) :
    ((metaFunction mods selfFuncs func_name args kwargs no_record s).1).function_list
      = s.function_list := by
  unfold metaFunction
  split
  · rfl
  · split
    · rfl
    · rename_i fn
      split
      · rfl
      · rename_i impl hres
        rcases resolveInMods_ok _ _ _ _ hres with ⟨m, hmm, p, hp, hv⟩ | hacc
        · exact hv ▸ hm m hmm p hp s args kwargs
        · cases hacc
      · split
        · rename_i impl hlk
          obtain ⟨p, hp, hv⟩ := lookupFn_mem _ _ _ hlk
          exact hv ▸ ht p hp s args kwargs
        · rfl
    · rename_i modName fn rest
      split
      · split
        · rfl
        · split
          · rfl
          · rename_i impl hres
            rcases resolveQualified_ok _ _ _ _ _ hres with ⟨m, hmm, p, hp, hv⟩ | hacc
            · exact hv ▸ hm m hmm p hp s args kwargs
            · cases hacc
          · rfl
      · split
        · rfl
        · split
          · rename_i impl hlk
            obtain ⟨p, hp, hv⟩ := lookupFn_mem _ _ _ hlk
            exact hv ▸ ht p hp s args kwargs
          · rfl

theorem retConst_preservesLog (v : JValue) : PreservesLog (retConst v) :=
  fun _ _ _ => rfl

theorem modA_preservesLog : ModsPreserveLog [modA] := by
  intro m hm p hp
  rw [List.mem_singleton] at hm
  subst hm
  have : p = ("f", retConst (.str "a")) := by
    simpa [modA] using hp
  rw [this]
  exact retConst_preservesLog _

theorem emptyTable_preservesLog : TablePreservesLog [] := by
  intro p hp
  cases hp

theorem set_attr_keeps_log (t : MMState) (attr : String) (v : JValue) :
    ((set_attr t attr v).1).function_list = t.function_list := by
  unfold set_attr
  split <;> rfl

/-! ## Claim theorems -/

/-- C1: the claim states that every function successfully invoked by
`meta_function` with `no_record=False` appends exactly one
`(name, args, kwargs)` entry to the Command Log.  The docstring of the code
itself promises this, but the `return` at line 151 executes before the
append at lines 158-159, which is therefore unreachable: a successful
call appends nothing.  This theorem evaluates the code at the claim:
whenever the attached functions themselves leave the log alone, a
successful `no_record=False` dispatch leaves `function_list` exactly as
it was — zero entries, not one. -/
theorem c1_successful_call_appends_nothing (mods : List PyModule)
    (selfFuncs : List (String × FuncImpl)) (func_name : String)
    (args : List JValue) (kwargs : List (String × JValue)) (s : MMState)
    (v : JValue) (hm : ModsPreserveLog mods) (ht : TablePreservesLog selfFuncs)
    (_hok : (metaFunction mods selfFuncs func_name args kwargs false s).2 = .ok v) :
    ((metaFunction mods selfFuncs func_name args kwargs false s).1).function_list
      = s.function_list :=
  metaFunction_preserves_log mods selfFuncs func_name args kwargs false s hm ht

/-- C1 witness: the successful recorded-mode call `alpha.f` on a concrete
state leaves the Command Log untouched. -/
theorem c1_successful_call_appends_nothing_witness :
    ((metaFunction [modA] [] "alpha.f" [] [] false sampleState).1).function_list
      = sampleState.function_list :=
  c1_successful_call_appends_nothing [modA] [] "alpha.f" [] [] sampleState
    (.str "a") modA_preservesLog emptyTable_preservesLog rfl

/-- C5: a dispatched operation that raises leaves the Command Log
unchanged.  In the code nothing on any error path of `meta_function`
touches `function_list` (indeed no path at all reaches the append at line
159), and the recording attempt of `set_attr` itself at line 301 calls
`list.append` with two arguments, raising `TypeError` before anything is
appended, so `set_attr` never changes the log either. -/
theorem c5_failed_call_leaves_log_unchanged (mods : List PyModule)
    (selfFuncs : List (String × FuncImpl)) (func_name : String)
    (args : List JValue) (kwargs : List (String × JValue)) (no_record : Bool)
    (s : MMState) (e : Err) (hm : ModsPreserveLog mods)
    (ht : TablePreservesLog selfFuncs)
    (_herr : (metaFunction mods selfFuncs func_name args kwargs no_record s).2
      = .error e) :
    ((metaFunction mods selfFuncs func_name args kwargs no_record s).1).function_list
        = s.function_list
    ∧ ∀ t attr v, ((set_attr t attr v).1).function_list = t.function_list :=
  ⟨metaFunction_preserves_log mods selfFuncs func_name args kwargs no_record s hm ht,
   set_attr_keeps_log⟩

/-- C5 witness: the failing dispatch of an unknown unqualified name on a
concrete state leaves the Command Log untouched. -/
theorem c5_failed_call_leaves_log_unchanged_witness :
    ((metaFunction [] [] "nope" [] [] false sampleState).1).function_list
        = sampleState.function_list
    ∧ ∀ t attr v, ((set_attr t attr v).1).function_list = t.function_list :=
  c5_failed_call_leaves_log_unchanged [] [] "nope" [] [] false sampleState
    .attributeError (by intro m hm; cases hm) emptyTable_preservesLog rfl

/-- C2: the claim describes the save/load round trip, but
`load_from_json` can never load anything: its first statement (line 214)
reads the name `json_file`, which is neither a parameter nor a local nor
a module-level name of `meta_model.py`, so every call raises `NameError`
before a file is read, a field is set, a module is re-attached or the
Command Log is replayed. -/
theorem c2_load_from_json_always_raises (s : MMState) :
    load_from_json s = (s, .error .nameError) := rfl

/-- C6: `write_json` serializes every instance field except the live
model handle (`model`) and the module objects (`modules`); module names
survive as strings, the Command Log survives as a list of
`(name, args, kwargs)` triples, and the payload records its own location
under `json_file`, equal to `filename + ".json"`, the value also stored
back on the wrapper. -/
theorem c6_write_json_payload (s : MMState) :
    lookupFn (write_json s).2 "model" = none
  ∧ lookupFn (write_json s).2 "modules" = none
  ∧ lookupFn (write_json s).2 "model_name" = some (.str s.model_name)
  ∧ lookupFn (write_json s).2 "date_created" = some (.str s.date_created)
  ∧ lookupFn (write_json s).2 "model_description" = some (.str s.model_description)
  ∧ lookupFn (write_json s).2 "solve_count" = some (.nat s.solve_count)
  ∧ lookupFn (write_json s).2 "optimal" = some (.bool s.optimal)
  ∧ lookupFn (write_json s).2 "function_list"
      = some (.arr (s.function_list.map serializeEntry))
  ∧ lookupFn (write_json s).2 "module_names"
      = some (.arr (s.module_names.map JValue.str))
  ∧ lookupFn (write_json s).2 "json_file" = some (.str (s.filename ++ ".json"))
  ∧ (write_json s).1 = {s with json_file := s.filename ++ ".json"} :=
  ⟨rfl, rfl, rfl, rfl, rfl, rfl, rfl, rfl, rfl, rfl, rfl⟩

/-- C7 counterexample: the claim requires a zero-padded two-digit month
and day (`YYYYMMDD`).  The code formats the date with `str()` of each
integer (lines 69-70 and 236), so on 2017-03-06 with solve count 0 the
stem of `forest.lp` is `forest_201736_0`, not the claimed
`forest_20170306_0`. -/
theorem c7_unpadded_date_counterexample :
    (update_filename ⟨2017, 3, 6⟩ sampleState).filename = "forest_201736_0"
  ∧ (update_filename ⟨2017, 3, 6⟩ sampleState).filename ≠ "forest_20170306_0" := by
  exact ⟨rfl, by decide⟩

/-- C7 amended: the stem computed by the constructor and by
`update_filename` is `{base-without-extension}_{Y}{M}{D}_{solve_count}`
with the year, month and day written in decimal WITHOUT zero padding, and
the snapshot location is the stem plus `".json"` (line 263). -/
theorem c7_stem_formula (d : PyDate) (s : MMState) (model_name : String)
    (model : List (String × JValue)) (dateStr : String) (ns : List String) :
    (update_filename d s).filename = specStem (splitext s.model_name).1 d s.solve_count
  ∧ (initFields model_name model dateStr d ns).filename
      = specStem (splitext model_name).1 d 0
  ∧ (write_json s).1.json_file = s.filename ++ ".json" := by
  refine ⟨?_, ?_, rfl⟩
  · simp [update_filename, specStem, fmtDate, String.append_assoc]
  · simp [initFields, specStem, fmtDate, String.append_assoc]

/-- C8: the claim says every `solve` recomputes the filename stem and
writes snapshots of successive solves to distinct locations.  In the code
`solve` never gets that far: line 275 evaluates `gp.GRB.status.OPTIMAL`,
and `gp` is not among the module-level names of `meta_model.py` (it
imports `pygurobi as pg` but never `gurobipy as gp`), so every call
raises `NameError` with the state unchanged and no snapshot written.
(Were the comparison reachable, the non-optimal branch would also skip
`update_filename`, so successive failed solves would reuse one location.) -/
theorem c8_solve_raises_name_error (d : PyDate) (status : Nat) (s : MMState) :
    solve d status s = (s, [], .error .nameError) := rfl

/-- C9: for an attribute present on the wrapped model, `get_attr` returns
its value, appends nothing to the Command Log, and leaves the whole
wrapper state — hence every field — unchanged. -/
theorem c9_get_attr_pure (s : MMState) (attr : String) (v : JValue)
    (h : lookupFn s.model attr = some v) :
    (get_attr s attr).2 = .ok v ∧ (get_attr s attr).1 = s := by
  unfold get_attr
  rw [h]
  exact ⟨rfl, rfl⟩

/-- C9 witness: reading the `Status` attribute of the sample model. -/
theorem c9_get_attr_pure_witness :
    (get_attr sampleState "Status").2 = .ok (.nat 2)
  ∧ (get_attr sampleState "Status").1 = sampleState :=
  c9_get_attr_pure sampleState "Status" (.nat 2) rfl

theorem resolveQualified_no_match (mods : List PyModule) (modName fn : String)
    (acc : Option FuncImpl) (h : ∀ m ∈ mods, m.modName ≠ modName) :
    resolveQualified mods modName fn acc = .ok acc := by
  induction mods generalizing acc with
  | nil => rfl
  | cons m rest ih =>
    rw [resolveQualified, if_neg (h m (List.mem_cons_self _ _))]
    exact ih _ (fun m' hm' => h m' (List.mem_cons_of_mem _ hm'))

/-- C4: dispatching a qualified name `m.f` whose qualifier `m` is neither
`"self"` nor the name of any attached module raises the
module-not-attached error (`KeyError` at line 116, how the code realises
the ModuleNotAttached error of the spec) with the wrapper state — in particular
the Command Log — completely unchanged: the failure happens before any
function is invoked and before the (unreachable) append. -/
theorem c4_unattached_qualifier_raises (mods : List PyModule)
    (selfFuncs : List (String × FuncImpl)) (modName fn func_name : String)
    (args : List JValue) (kwargs : List (String × JValue)) (no_record : Bool)
    (s : MMState) (hsplit : pySplitDot func_name = [modName, fn])
    (hself : modName ≠ "self") (hnm : ∀ m ∈ mods, m.modName ≠ modName) :
    metaFunction mods selfFuncs func_name args kwargs no_record s
        = (s, .error .keyError)
    ∧ ((metaFunction mods selfFuncs func_name args kwargs no_record s).1).function_list
        = s.function_list := by
  have hne : func_name ≠ "" := by
    intro h0
    rw [h0] at hsplit
    simp [pySplitDot, splitDotAux] at hsplit
  have h1 : metaFunction mods selfFuncs func_name args kwargs no_record s
      = (s, .error .keyError) := by
    unfold metaFunction
    rw [if_neg hne]
    split
    · rename_i heq
      rw [hsplit] at heq
      simp at heq
    · rename_i fn' heq
      rw [hsplit] at heq
      simp at heq
    · rename_i mn f rest heq
      rw [hsplit] at heq
      injection heq with e1 e2
      injection e2 with e2 e3
      subst e1
      subst e2
      subst e3
      rw [if_pos hself, if_neg (show ¬(([] : List String) ≠ []) from not_not_intro rfl)]
      rw [resolveQualified_no_match mods modName fn none hnm]
  exact ⟨h1, by rw [h1]⟩

/-- C4 witness: dispatching `"foo.bar"` with only module `alpha` attached
fails with the lookup error and leaves the log of the concrete state alone. -/
theorem c4_unattached_qualifier_raises_witness :
    metaFunction [modA] [] "foo.bar" [] [] false sampleState
        = (sampleState, .error .keyError)
    ∧ ((metaFunction [modA] [] "foo.bar" [] [] false sampleState).1).function_list
        = sampleState.function_list :=
  c4_unattached_qualifier_raises [modA] [] "foo" "bar" "foo.bar" [] [] false
    sampleState rfl (by decide)
    (by
      intro m hm
      rw [List.mem_singleton] at hm
      subst hm
      decide)

/-- C3 counterexample: the claim says an unqualified name resolves to the
FIRST attached module that defines it.  With `alpha` attached before
`beta`, both defining `f` (returning `"a"` and `"b"` respectively), the
loop at lines 137-141 overwrites `func` on every hit without breaking, so
the dispatch returns `"b"` — the function of the LAST module — not `"a"`. -/
theorem c3_first_match_counterexample :
    (metaFunction [modA, modB] [] "f" [] [] false sampleState).2
        = .ok (.str "b")
  ∧ (metaFunction [modA, modB] [] "f" [] [] false sampleState).2
        ≠ .ok (.str "a") := by
  refine ⟨rfl, ?_⟩
  intro h
  rw [show (metaFunction [modA, modB] [] "f" [] [] false sampleState).2
      = Except.ok (JValue.str "b") from rfl] at h
  injection h with h2
  injection h2 with h3
  exact absurd h3 (by decide)

theorem resolveInMods_all_defined (mods : List PyModule) (fn : String)
    (h : ∀ m ∈ mods, lookupFn m.funcs fn ≠ none) :
    ∀ acc, resolveInMods mods fn acc
      = .ok (match lastDefined mods fn with
             | some impl => some impl
             | none => acc) := by
  induction mods with
  | nil => intro acc; rfl
  | cons m rest ih =>
    intro acc
    rw [resolveInMods]
    cases hlk : lookupFn m.funcs fn with
    | none => exact absurd hlk (h m (List.mem_cons_self _ _))
    | some i =>
      show resolveInMods rest fn (some i)
          = Except.ok (match lastDefined (m :: rest) fn with
                       | some impl => some impl
                       | none => acc)
      rw [ih (fun m' hm' => h m' (List.mem_cons_of_mem _ hm')) (some i), lastDefined]
      cases hld : lastDefined rest fn with
      | some j => rfl
      | none => rw [hlk]

theorem resolveInMods_missing (mods : List PyModule) (fn : String)
    (h : ∃ m ∈ mods, lookupFn m.funcs fn = none) :
    ∀ acc, resolveInMods mods fn acc = .error .attributeError := by
  induction mods with
  | nil =>
    rcases h with ⟨m, hm, _⟩
    cases hm
  | cons m rest ih =>
    intro acc
    rw [resolveInMods]
    cases hlk : lookupFn m.funcs fn with
    | none => rfl
    | some i =>
      show resolveInMods rest fn (some i) = .error .attributeError
      rcases h with ⟨m', hm', hnone⟩
      rcases List.mem_cons.mp hm' with heq | hm'
      · subst heq
        rw [hlk] at hnone
        cases hnone
      · exact ih ⟨m', hm', hnone⟩ _

theorem lastDefined_isSome (m : PyModule) (rest : List PyModule) (fn : String)
    (h : lookupFn m.funcs fn ≠ none) :
    ∃ impl, lastDefined (m :: rest) fn = some impl := by
  rw [lastDefined]
  cases hld : lastDefined rest fn with
  | some j => exact ⟨j, rfl⟩
  | none =>
    cases hlk : lookupFn m.funcs fn with
    | none => exact absurd hlk h
    | some i => exact ⟨i, rfl⟩

/-- C3 amended: for an unqualified name the loop at lines 137-141 probes
EVERY attached module and overwrites the resolved function on each hit,
and its `except KeyError` handler does not catch the `AttributeError`
that `getattr` raises on a module lacking the name.  Hence: with no
modules attached the dispatch falls back to the methods of the wrapper itself;
when every attached module defines the name it resolves to the LAST
attached module defining it (not the first, as claimed); and when some
attached module does not define the name the dispatch raises
`AttributeError` — the fallback to the methods of the wrapper itself is reached
only when no module is attached. -/
theorem c3_amended_unqualified_resolution (mods : List PyModule)
    (selfFuncs : List (String × FuncImpl)) (fn : String) (args : List JValue)
    (kwargs : List (String × JValue)) (no_record : Bool) (s : MMState)
    (hsplit : pySplitDot fn = [fn]) (hne : fn ≠ "") :
    (mods = [] →
        metaFunction mods selfFuncs fn args kwargs no_record s
          = (match lookupFn selfFuncs fn with
             | some impl => impl s args kwargs
             | none => (s, .error .attributeError)))
  ∧ ((∀ m ∈ mods, lookupFn m.funcs fn ≠ none) → mods ≠ [] →
        ∃ impl, lastDefined mods fn = some impl ∧
          metaFunction mods selfFuncs fn args kwargs no_record s
            = impl s args kwargs)
  ∧ ((∃ m ∈ mods, lookupFn m.funcs fn = none) →
        metaFunction mods selfFuncs fn args kwargs no_record s
          = (s, .error .attributeError)) := by
  have hred : metaFunction mods selfFuncs fn args kwargs no_record s
      = (match resolveInMods mods fn none with
         | .error e => (s, .error e)
         | .ok (some impl) => impl s args kwargs
         | .ok none =>
           match lookupFn selfFuncs fn with
           | some impl => impl s args kwargs
           | none => (s, .error .attributeError)) := by
    unfold metaFunction
    rw [if_neg hne]
    split
    · rename_i heq
      rw [hsplit] at heq
      simp at heq
    · rename_i fn' heq
      rw [hsplit] at heq
      injection heq with e1 _
      subst e1
      rfl
    · rename_i mn f rest heq
      rw [hsplit] at heq
      simp at heq
  refine ⟨?_, ?_, ?_⟩
  · intro hmods
    subst hmods
    rw [hred]
    rfl
  · intro hall hnonempty
    obtain ⟨m, rest, rfl⟩ : ∃ m rest, mods = m :: rest := by
      cases mods with
      | nil => exact absurd rfl hnonempty
      | cons m rest => exact ⟨m, rest, rfl⟩
    obtain ⟨impl, himpl⟩ := lastDefined_isSome m rest fn (hall m (List.mem_cons_self _ _))
    refine ⟨impl, himpl, ?_⟩
    rw [hred, resolveInMods_all_defined _ _ hall none, himpl]
  · intro hmiss
    rw [hred, resolveInMods_missing _ _ hmiss none]

/-- C3 amended witness: with `alpha` then `beta` attached, both defining
`f`, the dispatch of `"f"` resolves to the function of `beta`. -/
theorem c3_amended_unqualified_resolution_witness :
    (([modA, modB] : List PyModule) = [] →
        metaFunction [modA, modB] [] "f" [] [] false sampleState
          = (match lookupFn ([] : List (String × FuncImpl)) "f" with
             | some impl => impl sampleState [] []
             | none => (sampleState, .error .attributeError)))
  ∧ ((∀ m ∈ ([modA, modB] : List PyModule), lookupFn m.funcs "f" ≠ none) →
        ([modA, modB] : List PyModule) ≠ [] →
        ∃ impl, lastDefined [modA, modB] "f" = some impl ∧
          metaFunction [modA, modB] [] "f" [] [] false sampleState
            = impl sampleState [] [])
  ∧ ((∃ m ∈ ([modA, modB] : List PyModule), lookupFn m.funcs "f" = none) →
        metaFunction [modA, modB] [] "f" [] [] false sampleState
          = (sampleState, .error .attributeError)) :=
  c3_amended_unqualified_resolution [modA, modB] [] "f" [] [] false sampleState
    rfl (by decide)

theorem add_modules_self_diverges (env : List String) (fuel : Nat) :
    ∀ (i : Nat) (s : MMState) (attached : List String),
      i < s.module_names.length →
      (∀ nm ∈ s.module_names, nm ≠ "" ∧ env.contains nm = true) →
      add_modules_self env fuel i (s, attached) = none := by
  induction fuel with
  | zero =>
    intro i s attached _ _
    rfl
  | succ fuel ih =>
    intro i s attached hi hmem
    have hnm := hmem (s.module_names.get ⟨i, hi⟩) (s.module_names.get_mem _ _)
    rw [add_modules_self, dif_pos hi]
    rw [add_module, if_neg hnm.1, if_pos hnm.2]
    apply ih
    · simpa using Nat.succ_lt_succ hi
    · intro x hx
      rcases List.mem_append.mp hx with hx | hx
      · exact hmem x hx
      · rw [List.mem_singleton] at hx
        subst hx
        exact hnm

/-- C10: constructing a `MetaModel` with a non-empty list of resolvable
module names never terminates: `__init__` (line 75) calls
`add_modules(self.module_names)`, whose `for` loop iterates the very list
that each `add_module` call appends the current name back onto (line
182), so the index never catches up with the length.  Formally: no
amount of loop fuel makes the constructor return. -/
theorem c10_constructor_never_terminates (env : List String) (fuel : Nat)
    (model_name : String) (model : List (String × JValue)) (dateStr : String)
    (d : PyDate) (ns : List String) (hmn : model_name ≠ "") (hns : ns ≠ [])
    (hres : ∀ nm ∈ ns, nm ≠ "" ∧ env.contains nm = true) :
    mkMetaModel env fuel model_name model dateStr d ns = none := by
  have hdiv := add_modules_self_diverges env fuel 0
    (initFields model_name model dateStr d ns) []
    (List.length_pos.mpr hns) hres
  simp only [mkMetaModel]
  rw [if_neg hmn]
  have hmods : (initFields model_name model dateStr d ns).module_names = ns := rfl
  rw [hmods, if_neg hns, hdiv]

/-- C10 witness: a constructor call with one resolvable module name and a
concrete fuel bound has not returned. -/
theorem c10_constructor_never_terminates_witness :
    mkMetaModel ["analysis_functions"] 100 "forest.lp" sampleModel
      "2017-03-16 12:00:00" ⟨2017, 3, 16⟩ ["analysis_functions"] = none :=
  c10_constructor_never_terminates ["analysis_functions"] 100 "forest.lp"
    sampleModel "2017-03-16 12:00:00" ⟨2017, 3, 16⟩ ["analysis_functions"]
    (by decide) (by decide) (by decide)
